import Mathlib

/-!
Verification of the flatland typed columnar importer
(`internal/cache/cache.go`), shallowly embedded in Lean 4.

The embedding models:
* `FieldType` — the Go enum (`FieldTypeUnknown`, `FieldTypeString`,
  `FieldTypeInteger`, `FieldTypeFloat`);
* `inferProbableTypeFromString` — the per-cell probe, built on executable
  models of Go's `strconv.ParseInt(s, 10, 64)` and
  `strconv.ParseFloat(s, 10)` (Go treats any `bitSize` other than 32 as 64,
  so the float parse has 64-bit semantics);
* `DataSetCache`, `New`, `Import` — the cache and the import pass.  The
  `encoding/csv` lexical layer is external to the repository, so a source is
  modelled as the stream of outcomes `csv.Reader.Read` would deliver: each
  element is either a lexed record (a list of field strings) or a lexical
  parse failure, with `io.EOF` implicit at the end of the stream.  The
  reader's `FieldsPerRecord` check (records after the first must have the
  first record's field count, otherwise `Read` reports `ErrFieldCount`)
  is part of that layer and is modelled inside the import loop.
-/

namespace Flatland

/-- The Go `FieldType` enum, constructors in the source's iota order
(`FieldTypeUnknown`, `FieldTypeString`, `FieldTypeInteger`, `FieldTypeFloat`). -/
inductive FieldType where
  | unknown
  | string
  | integer
  | float
deriving DecidableEq, Repr

/-- ASCII decimal digit test, as Go's `'0' <= c && c <= '9'`
(48 and 57 are the code points of `0` and `9`). -/
def isDigitChar (c : Char) : Bool :=
  decide (48 ≤ c.toNat ∧ c.toNat ≤ 57)

/-- Value of a string of decimal digits, accumulated left to right as Go's
`strconv` digit loop does. -/
def digitsToNat (l : List Char) : Nat :=
  l.foldl (fun a c => a * 10 + (c.toNat - 48)) 0

/-- Strip one optional leading sign character, reporting whether it was `-`;
models the sign handling shared by Go's `strconv.ParseInt` and the float
reader. -/
def splitSign (l : List Char) : Bool × List Char :=
  match l with
  | [] => (false, [])
  | c :: r => if c = '+' then (false, r) else if c = '-' then (true, r) else (false, l)

/-- The signed value a digit string denotes. -/
def goIntValue (neg : Bool) (ds : List Char) : Int :=
  if neg then -(digitsToNat ds : Int) else (digitsToNat ds : Int)

/-- Model of Go `strconv.ParseInt(s, 10, 64)`: an optional sign followed by a
nonempty run of decimal digits, whose value must fit the signed 64-bit range
`[-2^63, 2^63 - 1]`; `none` models a non-nil error (syntax or range). -/
def goParseInt64 (s : String) : Option Int :=
  match splitSign s.data with
  | (neg, ds) =>
    if ds ≠ [] ∧ ds.all isDigitChar = true then
      if -(2 ^ 63) ≤ goIntValue neg ds ∧ goIntValue neg ds ≤ 2 ^ 63 - 1 then
        some (goIntValue neg ds)
      else none
    else none

/-- ASCII lower-casing of one character (Go's `lower` in `strconv`:
only `A`..`Z`, code points 65..90, are shifted by 32). -/
def lowerChar (c : Char) : Char :=
  if 65 ≤ c.toNat ∧ c.toNat ≤ 90 then Char.ofNat (c.toNat + 32) else c

/-- ASCII case-insensitive equality of character lists. -/
def eqIgnoreCase (a b : List Char) : Bool :=
  decide (a.map lowerChar = b.map lowerChar)

/-- Model of Go `strconv`'s `special`: the whole string is a (possibly
signed) spelling of `inf`/`infinity`, or the unsigned spelling `nan`,
matched case-insensitively.  These parse as floats with a nil error. -/
def isSpecialFloat (l : List Char) : Bool :=
  match l with
  | [] => false
  | c :: rest =>
    if c = '+' ∨ c = '-' then
      eqIgnoreCase rest ['i', 'n', 'f'] || eqIgnoreCase rest ['i', 'n', 'f', 'i', 'n', 'i', 't', 'y']
    else if c = 'n' ∨ c = 'N' then
      eqIgnoreCase rest ['a', 'n']
    else if c = 'i' ∨ c = 'I' then
      eqIgnoreCase rest ['n', 'f'] || eqIgnoreCase rest ['n', 'f', 'i', 'n', 'i', 't', 'y']
    else false

/-- Split a mantissa: a run of digits, an optional `.` followed by a second
run of digits, requiring at least one digit overall; returns
(integral digits, fractional digits, remainder).  `digitP` is the digit
class (decimal or hexadecimal), as in Go's `readFloat`. -/
def mantissaSplit (digitP : Char → Bool) (l : List Char) :
    Option (List Char × List Char × List Char) :=
  match l.dropWhile digitP with
  | '.' :: r2 =>
    if l.takeWhile digitP = [] ∧ r2.takeWhile digitP = [] then none
    else some (l.takeWhile digitP, r2.takeWhile digitP, r2.dropWhile digitP)
  | r1 => if l.takeWhile digitP = [] then none else some (l.takeWhile digitP, [], r1)

/-- A signed nonempty decimal digit run that consumes the whole input
(the exponent body of Go's `readFloat`). -/
def signedDigits (l : List Char) : Option Int :=
  match splitSign l with
  | (neg, ds) =>
    if ds ≠ [] ∧ ds.all isDigitChar = true then some (goIntValue neg ds)
    else none

/-- Optional decimal exponent: empty input means exponent 0, otherwise
`e`/`E` followed by signed digits ending the string. -/
def decExponent (l : List Char) : Option Int :=
  match l with
  | [] => some 0
  | c :: r => if c = 'e' ∨ c = 'E' then signedDigits r else none

/-- Mandatory binary exponent of a hexadecimal float: `p`/`P` followed by
signed decimal digits ending the string. -/
def hexExponent (l : List Char) : Option Int :=
  match l with
  | [] => none
  | c :: r => if c = 'p' ∨ c = 'P' then signedDigits r else none

/-- Overflow test for a decimal mantissa `D` scaled by `10^e`: the range
error Go reports when the value rounds to infinity.  The exact rounding
cutoff of `float64` is a half-ulp below `2^1024`; the spec leaves numeric
edge cases to the host parser, and no claim depends on inputs in that final
half-ulp, so the cutoff is taken at `2^1024`. -/
def decimalOverflows (D : Nat) (e : Int) : Bool :=
  match e with
  | Int.ofNat k => decide (2 ^ 1024 ≤ D * 10 ^ k)
  | Int.negSucc k => decide (2 ^ 1024 * 10 ^ (k + 1) ≤ D)

/-- Overflow test for a hexadecimal mantissa `H` scaled by `2^e`. -/
def pow2Overflows (H : Nat) (e : Int) : Bool :=
  match e with
  | Int.ofNat k => decide (2 ^ 1024 ≤ H * 2 ^ k)
  | Int.negSucc k => decide (2 ^ 1024 * 2 ^ (k + 1) ≤ H)

/-- Decimal float body (after the sign): mantissa, optional exponent, and
the range check. -/
def decFloatOk (l : List Char) : Bool :=
  match mantissaSplit isDigitChar l with
  | none => false
  | some (ip, fp, rest) =>
    match decExponent rest with
    | none => false
    | some e => !decimalOverflows (digitsToNat (ip ++ fp)) (e - (fp.length : Int))

/-- ASCII hexadecimal digit test. -/
def hexDigitChar (c : Char) : Bool :=
  isDigitChar c || decide (97 ≤ c.toNat ∧ c.toNat ≤ 102) || decide (65 ≤ c.toNat ∧ c.toNat ≤ 70)

/-- Value of a string of hexadecimal digits. -/
def hexDigitsToNat (l : List Char) : Nat :=
  l.foldl
    (fun a c =>
      a * 16 + (if isDigitChar c then c.toNat - 48
                else if decide (97 ≤ c.toNat) then c.toNat - 87
                else c.toNat - 55))
    0

/-- Hexadecimal float body (after the sign): `0x`/`0X`, a hexadecimal
mantissa, and a mandatory `p` exponent, as Go accepts. -/
def hexFloatOk (l : List Char) : Bool :=
  match l with
  | c0 :: c1 :: r =>
    if c0 = '0' ∧ (c1 = 'x' ∨ c1 = 'X') then
      match mantissaSplit hexDigitChar r with
      | none => false
      | some (ip, fp, rest) =>
        match hexExponent rest with
        | none => false
        | some e => !pow2Overflows (hexDigitsToNat (ip ++ fp)) (e - 4 * (fp.length : Int))
    else false
  | _ => false

/-- Model of Go `strconv.ParseFloat(s, 10)` restricted to success/failure
(`true` models a nil error).  Since `bitSize` is not 32, Go parses with
`float64` semantics: the special spellings, or a signed decimal or
hexadecimal literal covering the whole string that does not overflow.
Digit-separating underscores, which Go additionally accepts in restricted
positions, are not modelled: the spec leaves numeric-literal edge cases to
the host parser and no claim involves them. -/
def goParseFloatOk (s : String) : Bool :=
  if isSpecialFloat s.data then true
  else
    match splitSign s.data with
    | (_, l) => hexFloatOk l || decFloatOk l

/-- The per-cell probe of `cache.go`: try `strconv.ParseInt(s, 10, 64)`; on
error try `strconv.ParseFloat(s, 10)`; on error classify as a string. -/
def inferProbableTypeFromString (s : String) : FieldType :=
  match goParseInt64 s with
  | some _ => FieldType.integer
  | none => if goParseFloatOk s then FieldType.float else FieldType.string

/-- The in-memory columnar cache of `cache.go`: parallel field names and
types, and the row store of raw string cells. -/
structure DataSetCache where
  FieldNames : List String
  FieldTypes : List FieldType
  FieldData : List (List String)
deriving DecidableEq, Repr

/-- The `New` factory: an empty cache (the Go capacity hint has no
observable effect). -/
def New : DataSetCache :=
  { FieldNames := [], FieldTypes := [], FieldData := [] }

/-- One outcome of `csv.Reader.Read` short of `io.EOF`: a lexed record, or a
lexical CSV parse failure (for example an unbalanced quote).  A source is
the list of these outcomes in stream order; the end of the list is
`io.EOF`. -/
inductive CSVRead where
  | row (fields : List String)
  | parseFailure
deriving DecidableEq, Repr

/-- The errors `Import` returns, each carrying the resource URI it names in
its message: `could not open file ...`, `unexpected end of file while
reading CSV file header from ...`, `could not parse CSV file ...`. -/
inductive ImportError where
  | openError (uri : String)
  | unexpectedEOF (uri : String)
  | parseError (uri : String)
deriving DecidableEq, Repr

/-- The per-column `switch c.FieldTypes[column]` in `Import`'s row loop:
Unknown and Integer re-probe the cell; String is terminal; Float moves to
String exactly when the cell probes as a string. -/
def updateFieldType (t : FieldType) (s : String) : FieldType :=
  match t with
  | FieldType.unknown => inferProbableTypeFromString s
  | FieldType.string => FieldType.string
  | FieldType.integer => inferProbableTypeFromString s
  | FieldType.float =>
    if inferProbableTypeFromString s = FieldType.string then FieldType.string
    else FieldType.float

/-- The data-row loop of `Import`: `n` is the header's field count (the
`FieldsPerRecord` the csv reader fixed on its first read).  A record of any
other length makes `Read` report `ErrFieldCount`, which `Import` treats
like any parse error: it returns with the cache as mutated so far.  For a
good record the types are updated column by column and the record's cells
are appended as one row.  The result is (field types, row store, whether a
parse error ended the loop). -/
def importLoop (n : Nat) (types : List FieldType) (data : List (List String)) :
    List CSVRead → List FieldType × List (List String) × Bool
  | [] => (types, data, false)
  | CSVRead.parseFailure :: _ => (types, data, true)
  | CSVRead.row r :: rest =>
    if r.length = n then
      importLoop n (List.zipWith updateFieldType types r) (data ++ [r]) rest
    else (types, data, true)

/-- The `Import` method.  `src` is what opening and lexing the resource at
`uri` yields: `none` when `os.Open` fails, otherwise the stream of csv read
outcomes.  An empty stream is `io.EOF` on the header read.  On a header
record, `FieldNames` is assigned, `FieldTypes` is seeded to Integer at the
header's length, and the row loop runs; its outcome (including the
partially updated state, when a parse error aborts mid-stream) is the new
cache. -/
def Import (c : DataSetCache) (uri : String) (src : Option (List CSVRead)) :
    DataSetCache × Option ImportError :=
  match src with
  | none => (c, some (ImportError.openError uri))
  | some [] => (c, some (ImportError.unexpectedEOF uri))
  | some (CSVRead.parseFailure :: _) => (c, some (ImportError.parseError uri))
  | some (CSVRead.row header :: rest) =>
    let out := importLoop header.length
      (List.replicate header.length FieldType.integer) c.FieldData rest
    ({ FieldNames := header, FieldTypes := out.1, FieldData := out.2.1 },
     if out.2.2 then some (ImportError.parseError uri) else none)

/-- Rank of a field type in the spec's strictness order
Integer < Float < String (Unknown below all three). -/
def typeRank : FieldType → Nat
  | FieldType.unknown => 0
  | FieldType.integer => 1
  | FieldType.float => 2
  | FieldType.string => 3

/-- Modelled from the spec: the join (least upper bound) of two field types
in the strictness order Integer < Float < String. -/
def typeJoin (a b : FieldType) : FieldType :=
  if typeRank a ≤ typeRank b then b else a

/-- Modelled from the spec: the final type of column `i` as the fold of the
lattice join over the per-cell probe results, seeded with Integer. -/
def columnFinalType (rows : List (List String)) (i : Nat) : FieldType :=
  rows.foldl (fun t r => typeJoin t (inferProbableTypeFromString (r.getD i "")))
    FieldType.integer

/-- The fold the import loop performs on the type array over a list of good
records. -/
def typesFold (types : List FieldType) (rows : List (List String)) : List FieldType :=
  rows.foldl (fun ts r => List.zipWith updateFieldType ts r) types

/-! ### Basic facts about the probe and the per-column transition -/

/-- The probe never classifies a cell as Unknown: every branch of
`inferProbableTypeFromString` returns Integer, Float or String. -/
theorem inferProbableTypeFromString_ne_unknown (s : String) :
    inferProbableTypeFromString s ≠ FieldType.unknown := by
  unfold inferProbableTypeFromString
  cases goParseInt64 s
  · show (if goParseFloatOk s = true then FieldType.float else FieldType.string) ≠
      FieldType.unknown
    split <;> simp
  · show FieldType.integer ≠ FieldType.unknown
    simp

theorem probe_cases (s : String) :
    inferProbableTypeFromString s = FieldType.integer ∨
    inferProbableTypeFromString s = FieldType.float ∨
    inferProbableTypeFromString s = FieldType.string := by
  cases h : inferProbableTypeFromString s
  · exact absurd h (inferProbableTypeFromString_ne_unknown s)
  · exact Or.inr (Or.inr rfl)
  · exact Or.inl rfl
  · exact Or.inr (Or.inl rfl)

theorem updateFieldType_ne_unknown (t : FieldType) (s : String) :
    updateFieldType t s ≠ FieldType.unknown := by
  cases t with
  | unknown => exact inferProbableTypeFromString_ne_unknown s
  | string => simp [updateFieldType]
  | integer => exact inferProbableTypeFromString_ne_unknown s
  | float =>
    simp only [updateFieldType]
    split <;> simp

/-- On the three seeded states the per-column transition of the import loop
is exactly the lattice join with the cell's probe result. -/
theorem updateFieldType_eq_join (t : FieldType) (s : String)
    (ht : t ≠ FieldType.unknown) :
    updateFieldType t s = typeJoin t (inferProbableTypeFromString s) := by
  cases t with
  | unknown => exact absurd rfl ht
  | string =>
    rcases probe_cases s with h | h | h <;> simp only [updateFieldType, h] <;> decide
  | integer =>
    rcases probe_cases s with h | h | h <;> simp only [updateFieldType, h] <;> decide
  | float =>
    rcases probe_cases s with h | h | h <;> simp only [updateFieldType, h] <;> decide

/-- One transition never lowers the rank: the type only widens. -/
theorem typeRank_le_update (t : FieldType) (s : String) :
    typeRank t ≤ typeRank (updateFieldType t s) := by
  cases t <;> rcases probe_cases s with h | h | h <;>
    simp only [updateFieldType, h] <;> decide

theorem typeRank_le_three (t : FieldType) : typeRank t ≤ 3 := by
  cases t <;> decide

theorem typeRank_eq_three (t : FieldType) (h : typeRank t = 3) :
    t = FieldType.string := by
  cases t <;> first | rfl | exact absurd h (by decide)

/-! ### List plumbing -/

theorem getD_zipWith_update (as : List FieldType) (bs : List String) (i : Nat)
    (h1 : i < as.length) (h2 : i < bs.length) :
    (List.zipWith updateFieldType as bs).getD i FieldType.unknown =
      updateFieldType (as.getD i FieldType.unknown) (bs.getD i "") := by
  induction as generalizing bs i with
  | nil => simp at h1
  | cons a as ih =>
    cases bs with
    | nil => simp at h2
    | cons b bs =>
      cases i with
      | zero => simp
      | succ i =>
        simp only [List.zipWith_cons_cons, List.getD_cons_succ]
        exact ih bs i (Nat.lt_of_succ_lt_succ h1) (Nat.lt_of_succ_lt_succ h2)

theorem getD_replicate_integer (n i : Nat) (hi : i < n) :
    (List.replicate n FieldType.integer).getD i FieldType.unknown =
      FieldType.integer := by
  induction n generalizing i with
  | zero => omega
  | succ n ih =>
    cases i with
    | zero => simp [List.replicate]
    | succ i => simpa [List.replicate] using ih i (Nat.lt_of_succ_lt_succ hi)

/-! ### The import loop on a stream of good records -/

/-- Running the loop over lexically good records of the right width updates
the types by the per-record fold, appends every record, and reports no
error. -/
theorem importLoop_rows (rows : List (List String)) (n : Nat)
    (types : List FieldType) (data : List (List String))
    (h : ∀ r ∈ rows, r.length = n) :
    importLoop n types data (rows.map CSVRead.row) =
      (typesFold types rows, data ++ rows, false) := by
  induction rows generalizing types data with
  | nil => simp [importLoop, typesFold]
  | cons r rs ih =>
    have hr : r.length = n := h r (by simp)
    simp only [List.map_cons, importLoop, hr, if_pos]
    rw [ih (List.zipWith updateFieldType types r) (data ++ [r])
      (fun x hx => h x (by simp [hx]))]
    simp [typesFold]

/-- Running the loop over good records followed by a lexical failure keeps
exactly the good records' updates and reports the error. -/
theorem importLoop_abort (rows : List (List String)) (n : Nat)
    (types : List FieldType) (data : List (List String)) (rest : List CSVRead)
    (h : ∀ r ∈ rows, r.length = n) :
    importLoop n types data
        (rows.map CSVRead.row ++ CSVRead.parseFailure :: rest) =
      (typesFold types rows, data ++ rows, true) := by
  induction rows generalizing types data with
  | nil => simp [importLoop, typesFold]
  | cons r rs ih =>
    have hr : r.length = n := h r (by simp)
    simp only [List.map_cons, List.cons_append, importLoop, hr, if_pos, List.append_eq]
    rw [ih (List.zipWith updateFieldType types r) (data ++ [r])
      (fun x hx => h x (by simp [hx]))]
    simp [typesFold]

theorem typesFold_length (rows : List (List String)) (types : List FieldType)
    (n : Nat) (ht : types.length = n) (h : ∀ r ∈ rows, r.length = n) :
    (typesFold types rows).length = n := by
  induction rows generalizing types with
  | nil => simpa [typesFold]
  | cons r rs ih =>
    simp only [typesFold, List.foldl_cons]
    exact ih (List.zipWith updateFieldType types r)
      (by rw [List.length_zipWith, ht, h r (by simp), Nat.min_self])
      (fun x hx => h x (by simp [hx]))

/-- Pointwise view of the type fold: entry `i` is the fold of the column's
per-cell transitions. -/
theorem typesFold_getD (rows : List (List String)) (types : List FieldType)
    (n i : Nat) (ht : types.length = n) (h : ∀ r ∈ rows, r.length = n)
    (hi : i < n) :
    (typesFold types rows).getD i FieldType.unknown =
      rows.foldl (fun t r => updateFieldType t (r.getD i ""))
        (types.getD i FieldType.unknown) := by
  induction rows generalizing types with
  | nil => simp [typesFold]
  | cons r rs ih =>
    simp only [typesFold, List.foldl_cons]
    have hr : r.length = n := h r (by simp)
    rw [show (List.foldl (fun ts r => List.zipWith updateFieldType ts r)
        (List.zipWith updateFieldType types r) rs) =
        typesFold (List.zipWith updateFieldType types r) rs from rfl]
    rw [ih (List.zipWith updateFieldType types r)
      (by rw [List.length_zipWith, ht, hr, Nat.min_self])
      (fun x hx => h x (by simp [hx]))]
    rw [getD_zipWith_update types r i (ht ▸ hi) (hr ▸ hi)]

/-- A fold of per-cell transitions from a seeded (non-Unknown) state is the
fold of the join with the per-cell probe results. -/
theorem foldl_update_eq_join (cells : List String) (t : FieldType)
    (ht : t ≠ FieldType.unknown) :
    cells.foldl updateFieldType t =
      cells.foldl (fun a s => typeJoin a (inferProbableTypeFromString s)) t := by
  induction cells generalizing t with
  | nil => rfl
  | cons c cs ih =>
    simp only [List.foldl_cons]
    rw [← updateFieldType_eq_join t c ht]
    exact ih (updateFieldType t c) (updateFieldType_ne_unknown t c)

/-- Across any stream the loop never lowers a column's rank. -/
theorem importLoop_rank_mono (reads : List CSVRead) (n : Nat)
    (types : List FieldType) (data : List (List String)) (i : Nat)
    (ht : types.length = n) :
    typeRank (types.getD i FieldType.unknown) ≤
      typeRank ((importLoop n types data reads).1.getD i FieldType.unknown) := by
  induction reads generalizing types data with
  | nil => simp [importLoop]
  | cons rd rest ih =>
    cases rd with
    | parseFailure => simp [importLoop]
    | row r =>
      by_cases hr : r.length = n
      · simp only [importLoop, hr, if_pos]
        refine Nat.le_trans ?_ (ih (List.zipWith updateFieldType types r)
          (data ++ [r]) (by rw [List.length_zipWith, ht, hr, Nat.min_self]))
        by_cases hi : i < n
        · rw [getD_zipWith_update types r i (ht ▸ hi) (hr ▸ hi)]
          exact typeRank_le_update _ _
        · rw [List.getD_eq_default _ _ (by omega),
            List.getD_eq_default _ _ (by rw [List.length_zipWith, ht, hr, Nat.min_self]; omega)]
      · simp [importLoop, hr]

theorem importLoop_types_length (reads : List CSVRead) (n : Nat)
    (types : List FieldType) (data : List (List String)) (ht : types.length = n) :
    (importLoop n types data reads).1.length = n := by
  induction reads generalizing types data with
  | nil => simpa [importLoop]
  | cons rd rest ih =>
    cases rd with
    | parseFailure => simpa [importLoop]
    | row r =>
      by_cases hr : r.length = n
      · simp only [importLoop, hr, if_pos]
        exact ih (List.zipWith updateFieldType types r) (data ++ [r])
          (by rw [List.length_zipWith, ht, hr, Nat.min_self])
      · simpa [importLoop, hr]

theorem importLoop_data_widths (reads : List CSVRead) (n : Nat)
    (types : List FieldType) (data : List (List String))
    (h : ∀ r ∈ data, r.length = n) :
    ∀ r ∈ (importLoop n types data reads).2.1, r.length = n := by
  induction reads generalizing types data with
  | nil => simpa [importLoop]
  | cons rd rest ih =>
    cases rd with
    | parseFailure => simpa [importLoop]
    | row r =>
      by_cases hr : r.length = n
      · simp only [importLoop, hr, if_pos]
        refine ih (List.zipWith updateFieldType types r) (data ++ [r]) ?_
        intro x hx
        rcases List.mem_append.1 hx with hx | hx
        · exact h x hx
        · rw [List.mem_singleton.1 hx]; exact hr
      · simpa [importLoop, hr]

/-! ### The claims -/

/-- C1: after a successful import of a valid header and any list of data
rows, each field's final type is the fold of the lattice join (strictness
order Integer < Float < String) over the column's per-cell probe results,
seeded with Integer. -/
theorem import_final_types_are_join_fold (uri : String) (header : List String)
    (rows : List (List String)) (h : ∀ r ∈ rows, r.length = header.length)
    (i : Nat) (hi : i < header.length) :
    (Import New uri (some (CSVRead.row header :: rows.map CSVRead.row))).2 = none ∧
    (Import New uri (some (CSVRead.row header ::
        rows.map CSVRead.row))).1.FieldTypes.getD i FieldType.unknown =
      columnFinalType rows i := by
  have hloop := importLoop_rows rows header.length
    (List.replicate header.length FieldType.integer) [] h
  constructor
  · simp [Import, New, hloop]
  · have h1 : (Import New uri (some (CSVRead.row header ::
        rows.map CSVRead.row))).1.FieldTypes =
        typesFold (List.replicate header.length FieldType.integer) rows := by
      simp [Import, New, hloop]
    rw [h1, typesFold_getD rows _ header.length i (List.length_replicate _ _) h hi,
      getD_replicate_integer header.length i hi]
    have h2 := foldl_update_eq_join (rows.map (fun r => r.getD i ""))
      FieldType.integer (by simp)
    rw [List.foldl_map, List.foldl_map] at h2
    simp only [columnFinalType]
    exact h2

theorem import_final_types_are_join_fold_witness :
    (Import New "sales.csv" (some (CSVRead.row ["id", "price", "name"] ::
        List.map CSVRead.row [["1", "9.99", "apple"], ["2", "10", "banana"]]))).2 = none ∧
    (Import New "sales.csv" (some (CSVRead.row ["id", "price", "name"] ::
        List.map CSVRead.row
          [["1", "9.99", "apple"], ["2", "10", "banana"]]))).1.FieldTypes.getD 1
        FieldType.unknown =
      columnFinalType [["1", "9.99", "apple"], ["2", "10", "banana"]] 1 :=
  import_final_types_are_join_fold "sales.csv" ["id", "price", "name"]
    [["1", "9.99", "apple"], ["2", "10", "banana"]] (by decide) 1 (by decide)

/-- C2: a field's type only ever widens.  One cell transition never lowers
the rank in the order Integer < Float < String; a String field absorbs any
cell; across a whole row loop the rank never drops, and a field that is
String stays String whatever rows follow. -/
theorem field_type_widening_monotone (t : FieldType) (s : String) (n : Nat)
    (types : List FieldType) (data : List (List String)) (reads : List CSVRead)
    (i : Nat) (ht : types.length = n) :
    typeRank t ≤ typeRank (updateFieldType t s) ∧
    updateFieldType FieldType.string s = FieldType.string ∧
    typeRank (types.getD i FieldType.unknown) ≤
      typeRank ((importLoop n types data reads).1.getD i FieldType.unknown) ∧
    (types.getD i FieldType.unknown = FieldType.string →
      (importLoop n types data reads).1.getD i FieldType.unknown =
        FieldType.string) := by
  refine ⟨typeRank_le_update t s, rfl, importLoop_rank_mono reads n types data i ht, ?_⟩
  intro hstr
  have hmono := importLoop_rank_mono reads n types data i ht
  rw [hstr] at hmono
  exact typeRank_eq_three _ (Nat.le_antisymm (typeRank_le_three _) hmono)

theorem field_type_widening_monotone_witness :
    typeRank FieldType.integer ≤ typeRank (updateFieldType FieldType.integer "apple") ∧
    updateFieldType FieldType.string "7" = FieldType.string ∧
    typeRank ([FieldType.string].getD 0 FieldType.unknown) ≤
      typeRank ((importLoop 1 [FieldType.string] []
        [CSVRead.row ["7"]]).1.getD 0 FieldType.unknown) ∧
    ([FieldType.string].getD 0 FieldType.unknown = FieldType.string →
      (importLoop 1 [FieldType.string] [] [CSVRead.row ["7"]]).1.getD 0
          FieldType.unknown = FieldType.string) :=
  field_type_widening_monotone FieldType.integer "apple" 1 [FieldType.string] []
    [CSVRead.row ["7"]] 0 (by decide)

/-- C3: a lexical failure on a data row makes `Import` return a parse error
naming the resource, and the cache keeps exactly the rows appended before
the failing row — no rollback. -/
theorem import_parse_error_retains_prior_rows (uri : String)
    (header : List String) (rows : List (List String)) (rest : List CSVRead)
    (h : ∀ r ∈ rows, r.length = header.length) :
    (Import New uri (some (CSVRead.row header ::
        (rows.map CSVRead.row ++ CSVRead.parseFailure :: rest)))).2 =
      some (ImportError.parseError uri) ∧
    (Import New uri (some (CSVRead.row header ::
        (rows.map CSVRead.row ++ CSVRead.parseFailure :: rest)))).1.FieldData =
      rows := by
  have hloop := importLoop_abort rows header.length
    (List.replicate header.length FieldType.integer) [] rest h
  constructor <;> simp [Import, New, hloop]

theorem import_parse_error_retains_prior_rows_witness :
    (Import New "d.csv" (some (CSVRead.row ["a", "b"] ::
        (List.map CSVRead.row [["1", "2"], ["3", "4"]] ++
          CSVRead.parseFailure :: [])))).2 =
      some (ImportError.parseError "d.csv") ∧
    (Import New "d.csv" (some (CSVRead.row ["a", "b"] ::
        (List.map CSVRead.row [["1", "2"], ["3", "4"]] ++
          CSVRead.parseFailure :: [])))).1.FieldData =
      [["1", "2"], ["3", "4"]] :=
  import_parse_error_retains_prior_rows "d.csv" ["a", "b"]
    [["1", "2"], ["3", "4"]] [] (by decide)

/-- C4: a failed open or end-of-input on the header row returns an error
naming the resource and leaves the cache exactly as it was — and the fresh
cache has no field names, no field types and no rows. -/
theorem import_open_or_header_eof_leaves_cache_empty (uri : String) :
    Import New uri none = (New, some (ImportError.openError uri)) ∧
    Import New uri (some []) = (New, some (ImportError.unexpectedEOF uri)) ∧
    New.FieldNames = [] ∧ New.FieldTypes = [] ∧ New.FieldData = [] :=
  ⟨rfl, rfl, rfl, rfl, rfl⟩

/-- C5: a successful import stores one row per data row of the source: the
row store's length equals the number of records after the header. -/
theorem import_success_row_count (uri : String) (header : List String)
    (rows : List (List String)) (h : ∀ r ∈ rows, r.length = header.length) :
    (Import New uri (some (CSVRead.row header :: rows.map CSVRead.row))).2 = none ∧
    (Import New uri (some (CSVRead.row header ::
        rows.map CSVRead.row))).1.FieldData.length = rows.length := by
  have hloop := importLoop_rows rows header.length
    (List.replicate header.length FieldType.integer) [] h
  constructor <;> simp [Import, New, hloop]

theorem import_success_row_count_witness :
    (Import New "s.csv" (some (CSVRead.row ["a"] ::
        List.map CSVRead.row [["1"], ["x"], ["2.5"]]))).2 = none ∧
    (Import New "s.csv" (some (CSVRead.row ["a"] ::
        List.map CSVRead.row [["1"], ["x"], ["2.5"]]))).1.FieldData.length =
      [["1"], ["x"], ["2.5"]].length :=
  import_success_row_count "s.csv" ["a"] [["1"], ["x"], ["2.5"]] (by decide)

/-- C6: a header with zero data rows imports successfully and every field's
type is the Integer pre-seed (in particular not Unknown). -/
theorem import_zero_data_rows_types_integer (uri : String) (header : List String) :
    Import New uri (some [CSVRead.row header]) =
      ({ FieldNames := header,
         FieldTypes := List.replicate header.length FieldType.integer,
         FieldData := [] }, none) ∧
    ∀ i, i < header.length →
      (Import New uri (some [CSVRead.row header])).1.FieldTypes.getD i
          FieldType.unknown = FieldType.integer := by
  constructor
  · rfl
  · intro i hi
    exact getD_replicate_integer header.length i hi

/-- C7: the probe is a function of the literal string alone, classifying it
as Integer when it parses as a base-10 signed 64-bit integer, else Float
when it parses as a floating-point literal, else String — and it never
returns Unknown. -/
theorem probe_classification_never_unknown (s : String) :
    inferProbableTypeFromString s =
      (match goParseInt64 s with
       | some _ => FieldType.integer
       | none =>
         if goParseFloatOk s then FieldType.float else FieldType.string) ∧
    inferProbableTypeFromString s ≠ FieldType.unknown :=
  ⟨rfl, inferProbableTypeFromString_ne_unknown s⟩

/-- C8: after an import call on a fresh cache — successful or aborted by a
mid-stream parse error — field names and field types have equal length, and
every stored row has that same length (the header's column count; the csv
reader's field-count check rejects records of any other width).  The spec's
lifecycle populates a cache by a single import pass. -/
theorem import_parallel_lengths_invariant (uri : String)
    (src : Option (List CSVRead)) :
    (Import New uri src).1.FieldNames.length =
      (Import New uri src).1.FieldTypes.length ∧
    ∀ r ∈ (Import New uri src).1.FieldData,
      r.length = (Import New uri src).1.FieldNames.length := by
  match src with
  | none => exact ⟨rfl, by simp [Import, New]⟩
  | some [] => exact ⟨rfl, by simp [Import, New]⟩
  | some (CSVRead.parseFailure :: rest) => exact ⟨rfl, by simp [Import, New]⟩
  | some (CSVRead.row header :: rest) =>
    constructor
    · show header.length = (importLoop header.length
        (List.replicate header.length FieldType.integer) New.FieldData rest).1.length
      rw [importLoop_types_length rest header.length _ _ (List.length_replicate _ _)]
    · show ∀ r ∈ (importLoop header.length
        (List.replicate header.length FieldType.integer) New.FieldData rest).2.1,
        r.length = header.length
      exact importLoop_data_widths rest header.length _ [] (by simp)

/-- C10: a second import does not clear the first one's rows: field names
(and types) are rebuilt from the second header alone, while the row store is
only appended to, so both files' rows end up concatenated. -/
theorem second_import_appends_rows (u1 u2 : String) (h1 h2 : List String)
    (rows1 rows2 : List (List String))
    (hr1 : ∀ r ∈ rows1, r.length = h1.length)
    (hr2 : ∀ r ∈ rows2, r.length = h2.length) :
    (Import New u1 (some (CSVRead.row h1 :: rows1.map CSVRead.row))).2 = none ∧
    (Import (Import New u1 (some (CSVRead.row h1 :: rows1.map CSVRead.row))).1 u2
        (some (CSVRead.row h2 :: rows2.map CSVRead.row))).2 = none ∧
    (Import (Import New u1 (some (CSVRead.row h1 :: rows1.map CSVRead.row))).1 u2
        (some (CSVRead.row h2 :: rows2.map CSVRead.row))).1.FieldNames = h2 ∧
    (Import (Import New u1 (some (CSVRead.row h1 :: rows1.map CSVRead.row))).1 u2
        (some (CSVRead.row h2 :: rows2.map CSVRead.row))).1.FieldTypes =
      typesFold (List.replicate h2.length FieldType.integer) rows2 ∧
    (Import (Import New u1 (some (CSVRead.row h1 :: rows1.map CSVRead.row))).1 u2
        (some (CSVRead.row h2 :: rows2.map CSVRead.row))).1.FieldData =
      rows1 ++ rows2 := by
  have l1 := importLoop_rows rows1 h1.length
    (List.replicate h1.length FieldType.integer) [] hr1
  have c1 : Import New u1 (some (CSVRead.row h1 :: rows1.map CSVRead.row)) =
      ({ FieldNames := h1,
         FieldTypes := typesFold (List.replicate h1.length FieldType.integer) rows1,
         FieldData := rows1 }, none) := by
    simp [Import, New, l1]
  have l2 := importLoop_rows rows2 h2.length
    (List.replicate h2.length FieldType.integer) rows1 hr2
  rw [c1]
  simp [Import, l2]

theorem second_import_appends_rows_witness :
    (Import New "first.csv" (some (CSVRead.row ["x"] ::
        List.map CSVRead.row [["1"]]))).2 = none ∧
    (Import (Import New "first.csv" (some (CSVRead.row ["x"] ::
        List.map CSVRead.row [["1"]]))).1 "second.csv"
        (some (CSVRead.row ["y", "z"] :: List.map CSVRead.row [["p", "q"]]))).2 =
      none ∧
    (Import (Import New "first.csv" (some (CSVRead.row ["x"] ::
        List.map CSVRead.row [["1"]]))).1 "second.csv"
        (some (CSVRead.row ["y", "z"] ::
          List.map CSVRead.row [["p", "q"]]))).1.FieldNames = ["y", "z"] ∧
    (Import (Import New "first.csv" (some (CSVRead.row ["x"] ::
        List.map CSVRead.row [["1"]]))).1 "second.csv"
        (some (CSVRead.row ["y", "z"] ::
          List.map CSVRead.row [["p", "q"]]))).1.FieldTypes =
      typesFold (List.replicate ["y", "z"].length FieldType.integer) [["p", "q"]] ∧
    (Import (Import New "first.csv" (some (CSVRead.row ["x"] ::
        List.map CSVRead.row [["1"]]))).1 "second.csv"
        (some (CSVRead.row ["y", "z"] ::
          List.map CSVRead.row [["p", "q"]]))).1.FieldData =
      [["1"]] ++ [["p", "q"]] :=
  second_import_appends_rows "first.csv" "second.csv" ["x"] ["y", "z"]
    [["1"]] [["p", "q"]] (by decide) (by decide)

/-! ### Overflowing integer literals and the probe (claim C9) -/

/-- The mathematical value a signed decimal integer literal denotes. -/
def intLiteralValue (sgn ds : List Char) : Int :=
  if sgn = ['-'] then -(digitsToNat ds : Int) else (digitsToNat ds : Int)

theorem digit_char_ne (d : Char) (hd : isDigitChar d = true) (c : Char)
    (hc : isDigitChar c = false) : d ≠ c := fun heq => by
  rw [heq, hc] at hd
  exact Bool.noConfusion hd

theorem lowerChar_digit (d : Char) (hd : isDigitChar d = true) :
    lowerChar d = d := by
  simp only [isDigitChar, decide_eq_true_eq] at hd
  unfold lowerChar
  rw [if_neg (by omega)]

theorem eqIgnoreCase_head_ne (d c : Char) (tl rest : List Char)
    (h : lowerChar d ≠ lowerChar c) :
    eqIgnoreCase (d :: tl) (c :: rest) = false := by
  simp only [eqIgnoreCase, List.map_cons, decide_eq_false_iff_not]
  intro hcontra
  injection hcontra with h1 h2
  exact h h1

theorem eqIgnoreCase_digit_head (d : Char) (hd : isDigitChar d = true)
    (tl rest : List Char) (c : Char) (hc : isDigitChar c = false)
    (hlc : lowerChar c = c) :
    eqIgnoreCase (d :: tl) (c :: rest) = false := by
  apply eqIgnoreCase_head_ne
  rw [lowerChar_digit d hd, hlc]
  exact digit_char_ne d hd c hc

/-- A signed string of digits never spells one of the special float words. -/
theorem isSpecialFloat_sign_digits (sgn : List Char)
    (hsgn : sgn = [] ∨ sgn = ['+'] ∨ sgn = ['-'])
    (d : Char) (hd : isDigitChar d = true) (tl : List Char) :
    isSpecialFloat (sgn ++ (d :: tl)) = false := by
  rcases hsgn with rfl | rfl | rfl
  · simp [isSpecialFloat, digit_char_ne d hd '+' (by decide),
      digit_char_ne d hd '-' (by decide), digit_char_ne d hd 'n' (by decide),
      digit_char_ne d hd 'N' (by decide), digit_char_ne d hd 'i' (by decide),
      digit_char_ne d hd 'I' (by decide)]
  · simp [isSpecialFloat,
      eqIgnoreCase_digit_head d hd tl _ 'i' (by decide) (by decide)]
  · simp [isSpecialFloat,
      eqIgnoreCase_digit_head d hd tl _ 'i' (by decide) (by decide)]

theorem splitSign_digits (d : Char) (hd : isDigitChar d = true) (tl : List Char) :
    splitSign (d :: tl) = (false, d :: tl) := by
  simp [splitSign, digit_char_ne d hd '+' (by decide),
    digit_char_ne d hd '-' (by decide)]

/-- A string made only of digits can never start a hexadecimal float (its
second character would have to be `x` or `X`). -/
theorem hexFloatOk_digits (ds : List Char) (hdig : ds.all isDigitChar = true) :
    hexFloatOk ds = false := by
  cases ds with
  | nil => rfl
  | cons d tl =>
    cases tl with
    | nil => rfl
    | cons d2 tl2 =>
      have hd2 : isDigitChar d2 = true := by
        simp only [List.all_cons, Bool.and_eq_true] at hdig
        exact hdig.2.1
      simp [hexFloatOk, digit_char_ne d2 hd2 'x' (by decide),
        digit_char_ne d2 hd2 'X' (by decide)]

theorem decimalOverflows_zero (D : Nat) (h : D < 2 ^ 1024) :
    decimalOverflows D 0 = false := by
  have he : decimalOverflows D 0 = decide (2 ^ 1024 ≤ D * 10 ^ 0) := rfl
  rw [he, pow_zero, Nat.mul_one]
  exact decide_eq_false (by omega)

/-- A nonempty all-digit string below the overflow cutoff parses as a
decimal float. -/
theorem decFloatOk_digits (ds : List Char) (hne : ds ≠ [])
    (hdig : ds.all isDigitChar = true) (hfin : digitsToNat ds < 2 ^ 1024) :
    decFloatOk ds = true := by
  have hall := List.all_eq_true.mp hdig
  have htake : ds.takeWhile isDigitChar = ds := List.takeWhile_eq_self_iff.mpr hall
  have hdrop : ds.dropWhile isDigitChar = [] := List.dropWhile_eq_nil_iff.mpr hall
  have hm : mantissaSplit isDigitChar ds = some (ds, [], []) := by
    simp only [mantissaSplit, htake, hdrop]
    rw [if_neg hne]
  simp only [decFloatOk, hm, decExponent, List.append_nil, List.length_nil,
    Nat.cast_zero, sub_zero]
  rw [decimalOverflows_zero (digitsToNat ds) hfin]
  rfl

/-- Core of C9: once the sign split, the special words and the digits facts
are in place, an out-of-int64-range digit string probes as Float. -/
theorem probe_overflow_core (neg : Bool) (ds : List Char) (s : String)
    (hne : ds ≠ []) (hdig : ds.all isDigitChar = true)
    (hsplit : splitSign s.data = (neg, ds))
    (hspecial : isSpecialFloat s.data = false)
    (hout : ¬(-(2 ^ 63) ≤ goIntValue neg ds ∧ goIntValue neg ds ≤ 2 ^ 63 - 1))
    (hfin : digitsToNat ds < 2 ^ 1024) :
    inferProbableTypeFromString s = FieldType.float := by
  have hint : goParseInt64 s = none := by
    simp only [goParseInt64, hsplit]
    rw [if_pos ⟨hne, hdig⟩, if_neg hout]
  have hfloat : goParseFloatOk s = true := by
    simp [goParseFloatOk, hspecial, hsplit, hexFloatOk_digits ds hdig,
      decFloatOk_digits ds hne hdig hfin]
  simp [inferProbableTypeFromString, hint, hfloat]

/-- C9: a syntactically valid base-10 integer literal whose value falls
outside the signed 64-bit range but whose magnitude stays in the finite
float range probes as Float — not Integer (`ParseInt` reports a range
error) and not String (`ParseFloat` accepts it). -/
theorem probe_int64_overflow_classifies_float (s : String) (sgn ds : List Char)
    (hs : s.data = sgn ++ ds)
    (hsgn : sgn = [] ∨ sgn = ['+'] ∨ sgn = ['-'])
    (hne : ds ≠ []) (hdig : ds.all isDigitChar = true)
    (hout : ¬(-(2 ^ 63) ≤ intLiteralValue sgn ds ∧
      intLiteralValue sgn ds ≤ 2 ^ 63 - 1))
    (hfin : digitsToNat ds < 2 ^ 1024) :
    inferProbableTypeFromString s = FieldType.float := by
  obtain ⟨d, tl, rfl⟩ : ∃ d tl, ds = d :: tl := by
    cases ds with
    | nil => exact absurd rfl hne
    | cons d tl => exact ⟨d, tl, rfl⟩
  have hd : isDigitChar d = true := by
    simp only [List.all_cons, Bool.and_eq_true] at hdig
    exact hdig.1
  have hspec : isSpecialFloat s.data = false := by
    rw [hs]
    exact isSpecialFloat_sign_digits sgn hsgn d hd tl
  rcases hsgn with rfl | rfl | rfl
  · refine probe_overflow_core false (d :: tl) s hne hdig ?_ hspec ?_ hfin
    · rw [hs, List.nil_append]
      exact splitSign_digits d hd tl
    · simpa [goIntValue, intLiteralValue] using hout
  · refine probe_overflow_core false (d :: tl) s hne hdig ?_ hspec ?_ hfin
    · rw [hs]; rfl
    · simpa [goIntValue, intLiteralValue] using hout
  · refine probe_overflow_core true (d :: tl) s hne hdig ?_ hspec ?_ hfin
    · rw [hs]; rfl
    · simpa [goIntValue, intLiteralValue] using hout

set_option maxRecDepth 4000 in
theorem probe_int64_overflow_classifies_float_witness :
    inferProbableTypeFromString "9223372036854775808" = FieldType.float :=
  probe_int64_overflow_classifies_float "9223372036854775808" []
    ("9223372036854775808".data) rfl (Or.inl rfl) (by decide) (by decide)
    (by decide) (by decide)

end Flatland
